import Mathlib

/-!
Verification of the n8n WhatsApp dashboard server (message-store +
live-fanout + webhook-relay subsystem).

The definitions below are a shallow embedding of the server code in
src/n8n-whatsapp-dashboard.js (the two-webhook iteration; the older
single-webhook file src/n_8_n_whatsapp_dashboard.js agrees on every
part shared with it).  JSON request fields that may be absent are
modelled as Option String (none = the field is absent / undefined);
the in-memory Map of chats is modelled as an association list that
preserves key-insertion order; the SSE broadcast is modelled as the
list of events a handler emits (each event is written to every
attached viewer, best effort); the outbound fetch of a relay call is
modelled by passing the fetch outcome in as a parameter (Except:
error = the promise rejected) and recording the attempted call in the
handler result.
-/

/-- One stored chat message: body, direction ("in" | "out" | "user"),
and a wall-clock timestamp, as built by addMessage. -/
structure Msg where
  body : String
  direction : String
  ts : Nat
deriving Repr, DecidableEq

/-- The in-memory chat store: Map from phone to message array, as an
association list in key-insertion order. -/
abbrev Chats := List (String × List Msg)

/-- chats.has(k). -/
def chatsHas : Chats → String → Bool
  | [], _ => false
  | (a, _) :: t, k => a == k || chatsHas t k

/-- chats.get(k), with a missing key reading as the empty array. -/
def chatsGet : Chats → String → List Msg
  | [], _ => []
  | (a, ms) :: t, k => if a == k then ms else chatsGet t k

/-- chats.get(k).push(m): append m to the array stored under k (keys
are unique in a Map; appending at every occurrence is the same
operation on such lists). -/
def chatsPush : Chats → String → Msg → Chats
  | [], _, _ => []
  | (a, ms) :: t, k, m =>
      if a == k then (a, ms ++ [m]) :: chatsPush t k m
      else (a, ms) :: chatsPush t k m

/-- normalizePhone(raw) for a string argument: an empty string is
falsy and returns '' at once; otherwise every character that is not a
digit or a plus sign is removed (the regex [^\d+] with the g flag). -/
def normalizePhone (raw : String) : String :=
  if raw = "" then ""
  else String.mk (raw.toList.filter (fun c => c.isDigit || c == '+'))

/-- normalizePhone applied to a possibly-absent field: an absent
(undefined) value is falsy and yields ''. -/
def normalizePhoneOpt : Option String → String
  | none => ""
  | some s => normalizePhone s

/-- Truthiness test used by the validation guards (!phone): an absent
field or the empty string is falsy. -/
def isFalsy : Option String → Bool
  | none => true
  | some s => s == ""

/-- One SSE broadcast event: a message event carrying
(phone, body, direction, ts), or a settings event; the legacy settings
route broadcasts no actionWebhookUrl field (modelled as none). -/
inductive Event where
  | message (phone : String) (body : String) (direction : String) (ts : Nat)
  | settings (messageWebhookUrl : String) (actionWebhookUrl : Option String)
deriving Repr, DecidableEq

/-- The mutable server state the handlers read and write: the chat
store and the two configured webhook URLs. -/
structure ServerState where
  chats : Chats
  messageWebhookUrl : String
  actionWebhookUrl : String
deriving Repr, DecidableEq

/-- Initial state at process start: no chats, the webhook URLs come
from the environment (an unset variable reads as '', via || ''). -/
def initialState (sendEnv actionEnv : Option String) : ServerState :=
  { chats := [], messageWebhookUrl := sendEnv.getD "",
    actionWebhookUrl := actionEnv.getD "" }

/-- addMessage(phoneRaw, body, direction): normalizes the phone,
builds the message with the current time, creates the bucket on first
use, pushes, and broadcasts a message event.  Returns the new state,
the resolved phone, the stored message and the emitted events. -/
def addMessage (st : ServerState) (phoneRaw : Option String)
    (body : Option String) (direction : String) (now : Nat) :
    ServerState × String × Msg × List Event :=
  let phone := normalizePhoneOpt phoneRaw
  let msg : Msg := { body := body.getD "", direction := direction, ts := now }
  let cs := if chatsHas st.chats phone then st.chats else st.chats ++ [(phone, [])]
  let cs := chatsPush cs phone msg
  ({ st with chats := cs }, phone, msg,
   [Event.message phone msg.body msg.direction msg.ts])

/-- The .trim() of JavaScript strings: whitespace removed from both
ends, written over the character list so it is kernel-computable. -/
def jsTrim (s : String) : String :=
  String.mk
    (((s.toList.dropWhile Char.isWhitespace).reverse.dropWhile
        Char.isWhitespace).reverse)

/-- Outcome of the awaited fetch to a webhook URL: ok = resp.ok,
status = resp.status, text = the response body (already '' when
resp.text() rejected). -/
structure FetchResult where
  ok : Bool
  status : Nat
  text : String
deriving Repr, DecidableEq

/-- JSON body of an outbound relay call: the send payload
(phone and the original message), the action payload (phone only), or
the fixed stop sentinel stop: "yes". -/
inductive JsonPayload where
  | sendMsg (phone : String) (message : String)
  | phoneOnly (phone : String)
  | stopSentinel
deriving Repr, DecidableEq

/-- One attempted outbound relay call: destination URL and body. -/
structure RelayCall where
  url : String
  payload : JsonPayload
deriving Repr, DecidableEq

/-- JSON body sent back by a handler (with its HTTP status).
err s e stands for status s with body ok: false, error: e;
okPhone stands for 200 with ok: true and the resolved phone;
relay stands for 200 with the relay diagnostics ok, status, response;
the two settings shapes are the 200 bodies of the settings setters. -/
inductive ApiResponse where
  | okPhone (phone : String)
  | err (status : Nat) (error : String)
  | relay (ok : Bool) (status : Nat) (response : String)
  | settingsBoth (messageWebhookUrl : String) (actionWebhookUrl : String)
  | settingsLegacy (messageWebhookUrl : String)
deriving Repr, DecidableEq

/-- Everything one handler invocation produces: the state afterwards,
the HTTP response, the SSE events broadcast, and the outbound relay
calls attempted. -/
structure HandlerResult where
  state : ServerState
  response : ApiResponse
  events : List Event
  relayCalls : List RelayCall
deriving Repr, DecidableEq

/-- Request body shared by the two direction-fixed ingestion routes
and by /send: fields phone and message, each possibly absent. -/
structure WebhookReq where
  phone : Option String
  message : Option String
deriving Repr, DecidableEq

/-- Request body of the generic ingestion route /webhook/message. -/
structure WebhookMsgReq where
  phone : Option String
  message : Option String
  direction : Option String
deriving Repr, DecidableEq

/-- Request body of POST /settings/webhooks; none stands for a field
that is absent or not a string (typeof x !== 'string'). -/
structure SettingsWebhooksReq where
  messageWebhookUrl : Option String
  actionWebhookUrl : Option String
deriving Repr, DecidableEq

/-- POST /webhook/incoming: validate phone truthy and message
defined, then addMessage with direction 'in'. -/
def postWebhookIncoming (st : ServerState) (r : WebhookReq) (now : Nat) :
    HandlerResult :=
  if isFalsy r.phone || r.message.isNone then
    ⟨st, .err 400 "Expected JSON: \x7b phone, message \x7d", [], []⟩
  else
    let (st', p, _, evs) := addMessage st r.phone r.message "in" now
    ⟨st', .okPhone p, evs, []⟩

/-- POST /webhook/outgoing: same validation, direction 'out'. -/
def postWebhookOutgoing (st : ServerState) (r : WebhookReq) (now : Nat) :
    HandlerResult :=
  if isFalsy r.phone || r.message.isNone then
    ⟨st, .err 400 "Expected JSON: \x7b phone, message \x7d", [], []⟩
  else
    let (st', p, _, evs) := addMessage st r.phone r.message "out" now
    ⟨st', .okPhone p, evs, []⟩

/-- POST /webhook/message: also requires direction to be exactly
'in' or 'out' (the includes check on the array ['in','out']). -/
def postWebhookMessage (st : ServerState) (r : WebhookMsgReq) (now : Nat) :
    HandlerResult :=
  if isFalsy r.phone || r.message.isNone ||
      !(r.direction == some "in" || r.direction == some "out") then
    ⟨st, .err 400
      "Expected JSON: \x7b phone, message, direction: \x27in\x27|\x27out\x27 \x7d",
      [], []⟩
  else
    let (st', p, _, evs) :=
      addMessage st r.phone r.message (r.direction.getD "") now
    ⟨st', .okPhone p, evs, []⟩

/-- POST /settings/webhooks: both fields must be strings; both are
trimmed, stored, broadcast and echoed back. -/
def postSettingsWebhooks (st : ServerState) (r : SettingsWebhooksReq) :
    HandlerResult :=
  match r.messageWebhookUrl, r.actionWebhookUrl with
  | some m, some a =>
      let m' := jsTrim m
      let a' := jsTrim a
      ⟨{ st with messageWebhookUrl := m', actionWebhookUrl := a' },
       .settingsBoth m' a',
       [Event.settings m' (some a')], []⟩
  | _, _ =>
      ⟨st, .err 400
        "Provide both \x7b messageWebhookUrl, actionWebhookUrl \x7d as strings.",
       [], []⟩

/-- POST /settings/webhook (legacy single setter): url must be a
truthy string; only the message webhook URL is replaced, and the
settings event broadcast carries only that field. -/
def postSettingsWebhook (st : ServerState) (url : Option String) :
    HandlerResult :=
  match url with
  | some u =>
      if u = "" then
        ⟨st, .err 400 "Provide \x7b url \x7d as a string.", [], []⟩
      else
        let u' := jsTrim u
        ⟨{ st with messageWebhookUrl := u' },
         .settingsLegacy u',
         [Event.settings u' none], []⟩
  | none => ⟨st, .err 400 "Provide \x7b url \x7d as a string.", [], []⟩

/-- Settings payload served by GET /settings and inside the init
event: the two stored URLs plus the per-request derived absolute
ingestion endpoints and the token flag. -/
structure SettingsPayload where
  messageWebhookUrl : String
  actionWebhookUrl : String
  incomingEndpoint : String
  outgoingEndpoint : String
  tokenRequired : Bool
deriving Repr, DecidableEq

/-- buildSettingsPayload(req): base is derived from the request's
proto and host headers, tokenQS from its query token; the two webhook
URLs are read straight from the registry. -/
def buildSettingsPayload (st : ServerState) (proto host tokenQS : String)
    (tokenRequired : Bool) : SettingsPayload :=
  { messageWebhookUrl := st.messageWebhookUrl,
    actionWebhookUrl := st.actionWebhookUrl,
    incomingEndpoint := proto ++ "://" ++ host ++ "/webhook/incoming" ++ tokenQS,
    outgoingEndpoint := proto ++ "://" ++ host ++ "/webhook/outgoing" ++ tokenQS,
    tokenRequired := tokenRequired }

/-- POST /send: validate fields, then require a configured message
webhook URL, then the local echo (addMessage, direction 'user'), then
the relay; fetchRes is the outcome of the awaited fetch (error =
the promise rejected, caught by the 500 handler). -/
def postSend (st : ServerState) (r : WebhookReq) (now : Nat)
    (fetchRes : Except String FetchResult) : HandlerResult :=
  if isFalsy r.phone || r.message.isNone then
    ⟨st, .err 400 "Expected JSON: \x7b phone, message \x7d", [], []⟩
  else if st.messageWebhookUrl = "" then
    ⟨st, .err 400 "No Message Webhook configured. Set it in Settings.", [], []⟩
  else
    let (st', p, _, evs) := addMessage st r.phone r.message "user" now
    let call : RelayCall :=
      ⟨st.messageWebhookUrl, .sendMsg p (r.message.getD "")⟩
    match fetchRes with
    | .ok fr => ⟨st', .relay fr.ok fr.status (fr.text.take 1000), evs, [call]⟩
    | .error e => ⟨st', .err 500 e, evs, [call]⟩

/-- POST /stop: no validation and no store mutation; requires a
configured message webhook URL and relays the fixed stop sentinel. -/
def postStop (st : ServerState)
    (fetchRes : Except String FetchResult) : HandlerResult :=
  if st.messageWebhookUrl = "" then
    ⟨st, .err 400 "No Message Webhook configured. Set it in Settings.", [], []⟩
  else
    let call : RelayCall := ⟨st.messageWebhookUrl, .stopSentinel⟩
    match fetchRes with
    | .ok fr => ⟨st, .relay fr.ok fr.status (fr.text.take 1000), [], [call]⟩
    | .error e => ⟨st, .err 500 e, [], [call]⟩

/-- One append operation for reasoning about sequences of ingestion
calls: the raw inputs of one addMessage plus the clock reading. -/
structure AppendOp where
  phoneRaw : Option String
  body : Option String
  direction : String
  now : Nat
deriving Repr, DecidableEq

/-- The message one append operation stores. -/
def msgOf (op : AppendOp) : Msg :=
  { body := op.body.getD "", direction := op.direction, ts := op.now }

/-- Run a sequence of append operations through the store. -/
def runAppends (st : ServerState) : List AppendOp → ServerState
  | [] => st
  | op :: rest =>
      runAppends (addMessage st op.phoneRaw op.body op.direction op.now).1 rest

/-- Modelled from the spec: the ConversationId normalization as the
spec words it, namely stripping every character that is not a digit or
a LEADING plus sign, so at most one plus sign, and only in the first
position, survives.  Kept separate from normalizePhone so the two can
be compared. -/
def specNormalize (raw : String) : String :=
  match raw.toList with
  | [] => ""
  | c :: rest =>
      if c == '+' then String.mk ('+' :: rest.filter Char.isDigit)
      else String.mk ((c :: rest).filter Char.isDigit)

/-- Normalization as the code's regex actually behaves: every
character that is not a digit or a plus sign is stripped, and every
plus sign survives, wherever it occurs. -/
def keepDigitsAndPlus : List Char → List Char
  | [] => []
  | c :: rest =>
      if c.isDigit || c == '+' then c :: keepDigitsAndPlus rest
      else keepDigitsAndPlus rest

/-- Helper lemmas about the chat-store association list. -/
theorem chatsHas_chatsPush (cs : Chats) (k k' : String) (m : Msg) :
    chatsHas (chatsPush cs k m) k' = chatsHas cs k' := by
  induction cs with
  | nil => rfl
  | cons p t ih =>
      obtain ⟨a, ms⟩ := p
      by_cases h : a == k <;> simp [chatsPush, chatsHas, h, ih]

theorem chatsGet_eq_nil_of_not_has (cs : Chats) (k : String)
    (h : chatsHas cs k = false) : chatsGet cs k = [] := by
  induction cs with
  | nil => rfl
  | cons p t ih =>
      obtain ⟨a, ms⟩ := p
      simp [chatsHas] at h
      simp [chatsGet, h.1, ih h.2]

theorem chatsGet_append (cs ds : Chats) (k : String) :
    chatsGet (cs ++ ds) k =
      if chatsHas cs k then chatsGet cs k else chatsGet ds k := by
  induction cs with
  | nil => simp [chatsGet, chatsHas]
  | cons p t ih =>
      obtain ⟨a, ms⟩ := p
      by_cases h : a == k <;> simp [chatsGet, chatsHas, h, ih]

theorem chatsPush_append (cs ds : Chats) (k : String) (m : Msg) :
    chatsPush (cs ++ ds) k m = chatsPush cs k m ++ chatsPush ds k m := by
  induction cs with
  | nil => rfl
  | cons p t ih =>
      obtain ⟨a, ms⟩ := p
      by_cases h : a == k <;> simp [chatsPush, h, ih]

theorem chatsGet_chatsPush_self (cs : Chats) (k : String) (m : Msg)
    (h : chatsHas cs k = true) :
    chatsGet (chatsPush cs k m) k = chatsGet cs k ++ [m] := by
  induction cs with
  | nil => simp [chatsHas] at h
  | cons p t ih =>
      obtain ⟨a, ms⟩ := p
      by_cases ha : a == k
      · simp [chatsPush, chatsGet, ha]
      · simp [chatsHas, ha] at h
        simp [chatsPush, chatsGet, ha, ih h]

theorem chatsGet_chatsPush_ne (cs : Chats) (k k' : String) (m : Msg)
    (h : ¬ (k' == k)) :
    chatsGet (chatsPush cs k m) k' = chatsGet cs k' := by
  induction cs with
  | nil => rfl
  | cons p t ih =>
      obtain ⟨a, ms⟩ := p
      by_cases ha : a == k
      · have hak : a = k := by simpa using ha
        have : ¬ (a == k') := by
          simp only [beq_iff_eq] at h ⊢
          subst hak
          exact fun hk => h hk.symm
        simp [chatsPush, chatsGet, ha, this, ih]
      · by_cases hak' : a == k' <;> simp [chatsPush, chatsGet, ha, hak', ih]

/-- Effect of one addMessage on one conversation bucket. -/
theorem chatsGet_addMessage (st : ServerState) (p : Option String)
    (b : Option String) (d : String) (n : Nat) (k : String) :
    chatsGet (addMessage st p b d n).1.chats k =
      if normalizePhoneOpt p == k then
        chatsGet st.chats k ++ [⟨b.getD "", d, n⟩]
      else chatsGet st.chats k := by
  unfold addMessage
  set ph := normalizePhoneOpt p with hph
  by_cases hhas : chatsHas st.chats ph
  · by_cases hk : ph == k
    · have hk' : ph = k := by simpa using hk
      subst hk'
      simp [hhas, hk, chatsGet_chatsPush_self _ _ _ hhas]
    · simp only [hhas, if_true]
      have hk2 : ¬ (k == ph) := by
        simp only [beq_iff_eq] at hk ⊢
        exact fun h => hk h.symm
      simp [hk, chatsGet_chatsPush_ne _ _ _ _ hk2]
  · have hhasf : chatsHas st.chats ph = false := by simpa using hhas
    by_cases hk : ph == k
    · have hk' : ph = k := by simpa using hk
      subst hk'
      simp only [hhasf, Bool.false_eq_true, if_false, hk, if_true]
      rw [chatsPush_append, chatsGet_append]
      simp [chatsHas_chatsPush, hhasf, chatsPush, chatsGet,
            chatsGet_eq_nil_of_not_has _ _ hhasf]
    · have hk2 : ¬ (k == ph) := by
        simp only [beq_iff_eq] at hk ⊢
        exact fun h => hk h.symm
      simp only [hhasf, Bool.false_eq_true, if_false, hk]
      rw [chatsPush_append, chatsGet_append, chatsHas_chatsPush]
      by_cases hk3 : chatsHas st.chats k
      · simp [hk3, chatsGet_chatsPush_ne _ _ _ _ hk2]
      · have hk3f : chatsHas st.chats k = false := by simpa using hk3
        have hphk : ¬ ph = k := by simpa using hk
        simp [hk3f, chatsPush, chatsGet, hphk,
              chatsGet_eq_nil_of_not_has _ _ hk3f]

theorem filter_self_idem (p : Char → Bool) (l : List Char) :
    (l.filter p).filter p = l.filter p := by
  induction l with
  | nil => rfl
  | cons c t ih => by_cases h : p c <;> simp [List.filter_cons, h, ih]

theorem keepDigitsAndPlus_eq_filter (l : List Char) :
    keepDigitsAndPlus l = l.filter (fun c => c.isDigit || c == '+') := by
  induction l with
  | nil => rfl
  | cons c t ih =>
      by_cases h : (c.isDigit || c == '+')
      · simp [keepDigitsAndPlus, List.filter_cons, h, ih]
      · simp [keepDigitsAndPlus, List.filter_cons, h, ih]

/-- C7: normalization is idempotent — normalizing an already
normalized identifier is a no-op, for every raw identifier string. -/
theorem normalizePhone_idempotent (r : String) :
    normalizePhone (normalizePhone r) = normalizePhone r := by
  unfold normalizePhone
  by_cases h : r = ""
  · simp [h]
  · simp only [h, if_false]
    by_cases h2 :
        String.mk (r.toList.filter (fun c => c.isDigit || c == '+')) = ""
    · rw [if_pos h2, h2]
    · simp only [h2, if_false]
      congr 1
      exact filter_self_idem _ _

/-- C2 (counterexample): the code keeps every plus sign, not only a
leading one — on the raw identifier "1+1" normalizePhone returns
"1+1", while the normalization described by the spec (digits plus at
most a leading plus sign) would return "11". -/
theorem normalizePhone_interior_plus_counterexample :
    normalizePhone "1+1" = "1+1" ∧ specNormalize "1+1" = "11" ∧
      normalizePhone "1+1" ≠ specNormalize "1+1" := by decide

/-- C2 (amended): normalizePhone strips every character that is not a
digit or a plus sign, keeping every plus sign wherever it occurs; and
ingesting conversationId "+1 (555) 000-1111" with body "hi" through
POST /webhook/incoming stores exactly one message, under the
normalized conversation id "+15550001111", with direction inbound and
a 200 ok response naming that id. -/
theorem normalizePhone_spec_and_scenarioA :
    (∀ r : String, normalizePhone r = String.mk (keepDigitsAndPlus r.toList)) ∧
    (∀ t : Nat,
      (postWebhookIncoming (initialState none none)
          ⟨some "+1 (555) 000-1111", some "hi"⟩ t).state.chats
        = [("+15550001111", [⟨"hi", "in", t⟩])] ∧
      (postWebhookIncoming (initialState none none)
          ⟨some "+1 (555) 000-1111", some "hi"⟩ t).response
        = .okPhone "+15550001111") := by
  constructor
  · intro r
    unfold normalizePhone
    rw [keepDigitsAndPlus_eq_filter]
    by_cases h : r = ""
    · subst h; rfl
    · simp [h]
  · intro t
    exact ⟨rfl, rfl⟩

/-- C1 (counterexample): a valid /send request while no message
webhook is configured returns the structured failure, but the store
stays empty — the echo message is NOT appended, because the
configuration check runs before the local echo. -/
theorem send_no_endpoint_counterexample :
    (postSend ⟨[], "", ""⟩ ⟨some "+15550001111", some "hi"⟩ 5
        (.ok ⟨true, 200, ""⟩)).response
      = .err 400 "No Message Webhook configured. Set it in Settings." ∧
    chatsGet (postSend ⟨[], "", ""⟩ ⟨some "+15550001111", some "hi"⟩ 5
        (.ok ⟨true, 200, ""⟩)).state.chats "+15550001111" = [] := by
  exact ⟨rfl, rfl⟩

/-- C1 (amended): for every /send call with a present identifier and
a present body while no message webhook is configured, the response is
the structured failure with status 400 and the whole call is a no-op
on the store — no echo message is appended, no event is broadcast and
no relay is attempted; the echo precedes only an actually attempted
relay: when a webhook IS configured, the echoed operator message is in
the store even when the fetch fails. -/
theorem send_no_endpoint :
    (∀ (st : ServerState) (r : WebhookReq) (now : Nat)
        (fetchRes : Except String FetchResult),
      isFalsy r.phone = false → r.message.isNone = false →
      st.messageWebhookUrl = "" →
      postSend st r now fetchRes =
        ⟨st, .err 400 "No Message Webhook configured. Set it in Settings.",
         [], []⟩) ∧
    (∀ (st : ServerState) (r : WebhookReq) (now : Nat) (e : String),
      isFalsy r.phone = false → r.message.isNone = false →
      st.messageWebhookUrl ≠ "" →
      chatsGet (postSend st r now (.error e)).state.chats
          (normalizePhoneOpt r.phone)
        = chatsGet st.chats (normalizePhoneOpt r.phone)
            ++ [⟨r.message.getD "", "user", now⟩]) := by
  constructor
  · intro st r now fetchRes hp hm hw
    unfold postSend
    simp [hp, hm, hw]
  · intro st r now e hp hm hw
    unfold postSend
    simp only [hp, hm, Bool.or_self, Bool.false_or, Bool.or_false,
      Bool.false_eq_true, if_false, hw]
    have := chatsGet_addMessage st r.phone r.message "user" now
      (normalizePhoneOpt r.phone)
    simp only [beq_self_eq_true, if_true] at this
    simpa using this

/-- C1 (witness): the amended theorem at concrete inputs: the
unconfigured call is a 400 no-op, and with a configured webhook and a
rejected fetch the echo is still stored. -/
theorem send_no_endpoint_witness :
    postSend ⟨[], "", ""⟩ ⟨some "+15550001111", some "hi"⟩ 5
        (.ok ⟨true, 200, ""⟩)
      = ⟨⟨[], "", ""⟩,
         .err 400 "No Message Webhook configured. Set it in Settings.",
         [], []⟩ ∧
    chatsGet (postSend ⟨[], "https://m", ""⟩ ⟨some "+15550001111", some "hi"⟩ 5
        (.error "boom")).state.chats "+15550001111"
      = [⟨"hi", "user", 5⟩] :=
  ⟨send_no_endpoint.1 _ _ _ _ (by decide) (by decide) rfl,
   send_no_endpoint.2 ⟨[], "https://m", ""⟩ ⟨some "+15550001111", some "hi"⟩ 5
     "boom" (by decide) (by decide) (by decide)⟩

/-- C3 (counterexample): an identifier that is whitespace-only is
non-empty, hence truthy, so it is NOT rejected even though it is
empty after trimming: /webhook/incoming answers 200 and appends the
message under the empty normalized conversation id. -/
theorem ingest_whitespace_phone_counterexample :
    (postWebhookIncoming ⟨[], "", ""⟩ ⟨some " ", some "hi"⟩ 7).response
      = .okPhone "" ∧
    (postWebhookIncoming ⟨[], "", ""⟩ ⟨some " ", some "hi"⟩ 7).state.chats
      = [("", [⟨"hi", "in", 7⟩])] := by
  exact ⟨rfl, rfl⟩

/-- C3 (amended): on each of the three ingestion endpoints, a request
whose identifier field is absent, or present but exactly the empty
string, is rejected with status 400 and a structured error describing
the expected shape, leaving the store unchanged with no conversation
created, no message appended and no event broadcast; an identifier
that is merely whitespace passes the truthiness check and is stored
under the empty normalized id. -/
theorem ingest_missing_phone (st : ServerState) (m d : Option String)
    (now : Nat) (p : Option String) (hp : isFalsy p = true) :
    postWebhookIncoming st ⟨p, m⟩ now
      = ⟨st, .err 400 "Expected JSON: \x7b phone, message \x7d", [], []⟩ ∧
    postWebhookOutgoing st ⟨p, m⟩ now
      = ⟨st, .err 400 "Expected JSON: \x7b phone, message \x7d", [], []⟩ ∧
    postWebhookMessage st ⟨p, m, d⟩ now
      = ⟨st, .err 400
          "Expected JSON: \x7b phone, message, direction: \x27in\x27|\x27out\x27 \x7d",
          [], []⟩ := by
  unfold postWebhookIncoming postWebhookOutgoing postWebhookMessage
  simp [hp]

/-- C3 (witness): the amended rejection at concrete inputs, for an
absent identifier. -/
theorem ingest_missing_phone_witness :
    postWebhookIncoming ⟨[], "", ""⟩ ⟨none, some "hi"⟩ 3
      = ⟨⟨[], "", ""⟩, .err 400 "Expected JSON: \x7b phone, message \x7d",
         [], []⟩ ∧
    postWebhookOutgoing ⟨[], "", ""⟩ ⟨none, some "hi"⟩ 3
      = ⟨⟨[], "", ""⟩, .err 400 "Expected JSON: \x7b phone, message \x7d",
         [], []⟩ ∧
    postWebhookMessage ⟨[], "", ""⟩ ⟨none, some "hi", some "in"⟩ 3
      = ⟨⟨[], "", ""⟩,
         .err 400
           "Expected JSON: \x7b phone, message, direction: \x27in\x27|\x27out\x27 \x7d",
         [], []⟩ :=
  ingest_missing_phone ⟨[], "", ""⟩ (some "hi") (some "in") 3 none (by decide)

/-- C5: a /webhook/message request whose direction is not exactly
"in" and not exactly "out" is answered with status 400 and a
structured error, and is a complete no-op: no conversation is
created, no message appended, no event broadcast. -/
theorem webhook_message_bad_direction (st : ServerState)
    (p m d : Option String) (now : Nat)
    (h1 : d ≠ some "in") (h2 : d ≠ some "out") :
    postWebhookMessage st ⟨p, m, d⟩ now
      = ⟨st, .err 400
          "Expected JSON: \x7b phone, message, direction: \x27in\x27\x7c\x27out\x27 \x7d",
          [], []⟩ := by
  unfold postWebhookMessage
  have hd1 : (d == some "in") = false := by simpa using h1
  have hd2 : (d == some "out") = false := by simpa using h2
  simp [hd1, hd2]

/-- C5 (witness): the rejection at the concrete direction "typo". -/
theorem webhook_message_bad_direction_witness :
    postWebhookMessage ⟨[], "", ""⟩ ⟨some "+15550001111", some "hi", some "typo"⟩ 3
      = ⟨⟨[], "", ""⟩,
         .err 400
           "Expected JSON: \x7b phone, message, direction: \x27in\x27\x7c\x27out\x27 \x7d",
         [], []⟩ :=
  webhook_message_bad_direction ⟨[], "", ""⟩ (some "+15550001111") (some "hi")
    (some "typo") 3 (by decide) (by decide)

theorem chatsGet_runAppends (ops : List AppendOp) (st : ServerState)
    (k : String) :
    chatsGet (runAppends st ops).chats k
      = chatsGet st.chats k
        ++ (ops.filter (fun op => normalizePhoneOpt op.phoneRaw == k)).map
            msgOf := by
  induction ops generalizing st with
  | nil => simp [runAppends]
  | cons op rest ih =>
      rw [runAppends, ih, chatsGet_addMessage]
      by_cases h : normalizePhoneOpt op.phoneRaw == k
      · simp [List.filter_cons, h, msgOf]
      · simp [List.filter_cons, h]

/-- C6: running any sequence of append operations from the empty
store, the message list of each conversation equals exactly the
subsequence of operations that normalized to it, in insertion order
(append-only: nothing is deleted, reordered or mutated), and when the
wall clock is non-decreasing across the sequence the stored ts fields
are non-decreasing in that order. -/
theorem append_only_and_ordered (ops : List AppendOp) (k : String)
    (hclock : List.Pairwise (fun a b => a ≤ b) (ops.map AppendOp.now)) :
    chatsGet (runAppends ⟨[], "", ""⟩ ops).chats k
      = (ops.filter (fun op => normalizePhoneOpt op.phoneRaw == k)).map msgOf ∧
    List.Pairwise (fun a b => a.ts ≤ b.ts)
      ((ops.filter (fun op => normalizePhoneOpt op.phoneRaw == k)).map
        msgOf) := by
  constructor
  · rw [chatsGet_runAppends]
    rfl
  · have h1 : List.Pairwise (fun a b : AppendOp => a.now ≤ b.now) ops :=
      List.pairwise_map.mp hclock
    have h2 : List.Pairwise (fun a b : AppendOp => a.now ≤ b.now)
        (ops.filter (fun op => normalizePhoneOpt op.phoneRaw == k)) :=
      h1.sublist (List.filter_sublist ops)
    exact List.pairwise_map.mpr h2

/-- C6 (witness): the theorem at a concrete three-append run mixing
two conversations, with a non-decreasing clock. -/
theorem append_only_and_ordered_witness :
    chatsGet
        (runAppends ⟨[], "", ""⟩
          [⟨some "+1 (555) 000-1111", some "a", "in", 1⟩,
           ⟨some "+2", some "b", "out", 2⟩,
           ⟨some "+15550001111", none, "user", 2⟩]).chats "+15550001111"
      = ([⟨some "+1 (555) 000-1111", some "a", "in", 1⟩,
          ⟨some "+2", some "b", "out", 2⟩,
          ⟨some "+15550001111", none, "user", 2⟩].filter
            (fun op => normalizePhoneOpt op.phoneRaw == "+15550001111")).map
          msgOf ∧
    List.Pairwise (fun a b => a.ts ≤ b.ts)
      (([⟨some "+1 (555) 000-1111", some "a", "in", 1⟩,
         ⟨some "+2", some "b", "out", 2⟩,
         ⟨some "+15550001111", none, "user", 2⟩].filter
           (fun op => normalizePhoneOpt op.phoneRaw == "+15550001111")).map
         msgOf) :=
  append_only_and_ordered
    [⟨some "+1 (555) 000-1111", some "a", "in", 1⟩,
     ⟨some "+2", some "b", "out", 2⟩,
     ⟨some "+15550001111", none, "user", 2⟩] "+15550001111"
    (by decide)

/-- C4 (counterexample): a partial settings update that provides only
messageWebhookUrl (a perfectly good text value) is rejected with 400
and changes nothing — the handler demands BOTH fields, it does not
replace only the provided one. -/
theorem settings_partial_update_counterexample :
    postSettingsWebhooks ⟨[], "", ""⟩ ⟨some "https://x", none⟩
      = ⟨⟨[], "", ""⟩,
         .err 400
           "Provide both \x7b messageWebhookUrl, actionWebhookUrl \x7d as strings.",
         [], []⟩ := by
  exact rfl

/-- C4 (amended): POST /settings/webhooks demands both fields as
text: when both are provided it trims both, replaces both, answers
with the stored values and broadcasts one settings event carrying
both new values to all attached viewers; when either field is absent
or not text it answers 400 with a structured error and changes
nothing (no field replaced, no event broadcast).  Partial updates go
through the legacy single-field route instead. -/
theorem settings_webhooks_set :
    (∀ (st : ServerState) (m a : String),
      postSettingsWebhooks st ⟨some m, some a⟩
        = ⟨{ st with
               messageWebhookUrl := jsTrim m,
               actionWebhookUrl := jsTrim a },
           .settingsBoth (jsTrim m) (jsTrim a),
           [Event.settings (jsTrim m) (some (jsTrim a))], []⟩) ∧
    (∀ (st : ServerState) (r : SettingsWebhooksReq),
      r.messageWebhookUrl = none ∨ r.actionWebhookUrl = none →
      postSettingsWebhooks st r
        = ⟨st,
           .err 400
             "Provide both \x7b messageWebhookUrl, actionWebhookUrl \x7d as strings.",
           [], []⟩) := by
  constructor
  · intro st m a
    rfl
  · intro st r h
    obtain ⟨m, a⟩ := r
    rcases h with h | h <;> subst h
    · rfl
    · cases m <;> rfl

/-- C4 (witness): the amended behavior at concrete inputs — a full
update is trimmed, applied and broadcast; a partial one is rejected
unchanged. -/
theorem settings_webhooks_set_witness :
    postSettingsWebhooks ⟨[], "", ""⟩ ⟨some " https://x ", some "https://y"⟩
      = ⟨⟨[], jsTrim " https://x ", jsTrim "https://y"⟩,
         .settingsBoth (jsTrim " https://x ") (jsTrim "https://y"),
         [Event.settings (jsTrim " https://x ") (some (jsTrim "https://y"))],
         []⟩ ∧
    postSettingsWebhooks ⟨[], "", ""⟩ ⟨none, some "https://y"⟩
      = ⟨⟨[], "", ""⟩,
         .err 400
           "Provide both \x7b messageWebhookUrl, actionWebhookUrl \x7d as strings.",
         [], []⟩ :=
  ⟨settings_webhooks_set.1 ⟨[], "", ""⟩ " https://x " "https://y",
   settings_webhooks_set.2 ⟨[], "", ""⟩ ⟨none, some "https://y"⟩ (Or.inl rfl)⟩

/-- C8 (counterexample): the round-trip is not the identity on every
reachable configuration: the initial state seeded from an environment
variable with surrounding whitespace is reachable, and set(get())
trims it, changing the stored message webhook URL. -/
theorem settings_roundtrip_counterexample :
    (postSettingsWebhooks (initialState (some " https://x ") none)
        ⟨some (buildSettingsPayload (initialState (some " https://x ") none)
                 "https" "h" "" false).messageWebhookUrl,
         some (buildSettingsPayload (initialState (some " https://x ") none)
                 "https" "h" "" false).actionWebhookUrl⟩).state.messageWebhookUrl
      = "https://x" ∧
    (initialState (some " https://x ") none).messageWebhookUrl
      = " https://x " := by
  exact ⟨by decide, rfl⟩

/-- C8 (amended): on every configuration state whose endpoint values
carry no surrounding whitespace — which covers every state a
successful settings update produces, since updates store trimmed
values — feeding the endpoint-URL values returned by get back into
set leaves both URLs unchanged and broadcasts one settings event with
those identical values. -/
theorem settings_roundtrip (st : ServerState) (proto host tokenQS : String)
    (tokenRequired : Bool)
    (hm : jsTrim st.messageWebhookUrl = st.messageWebhookUrl)
    (ha : jsTrim st.actionWebhookUrl = st.actionWebhookUrl) :
    postSettingsWebhooks st
        ⟨some (buildSettingsPayload st proto host tokenQS
                 tokenRequired).messageWebhookUrl,
         some (buildSettingsPayload st proto host tokenQS
                 tokenRequired).actionWebhookUrl⟩
      = ⟨st, .settingsBoth st.messageWebhookUrl st.actionWebhookUrl,
         [Event.settings st.messageWebhookUrl (some st.actionWebhookUrl)],
         []⟩ := by
  obtain ⟨cs, m, a⟩ := st
  simp only [buildSettingsPayload] at hm ha ⊢
  simp only [postSettingsWebhooks]
  rw [hm, ha]

/-- C8 (witness): the amended round-trip at a concrete trimmed
configuration. -/
theorem settings_roundtrip_witness :
    postSettingsWebhooks ⟨[], "https://x", ""⟩
        ⟨some (buildSettingsPayload ⟨[], "https://x", ""⟩ "https" "h" ""
                 false).messageWebhookUrl,
         some (buildSettingsPayload ⟨[], "https://x", ""⟩ "https" "h" ""
                 false).actionWebhookUrl⟩
      = ⟨⟨[], "https://x", ""⟩, .settingsBoth "https://x" "",
         [Event.settings "https://x" (some "")], []⟩ :=
  settings_roundtrip ⟨[], "https://x", ""⟩ "https" "h" "" false
    (by decide) (by decide)

/-- C9: every /stop call leaves the store untouched and broadcasts
nothing (so no viewer receives a message event); when a message
webhook is configured, exactly one relay call is attempted, against
that URL with the fixed sentinel payload, and a resolved fetch is
reported back to the caller as the relay diagnostics ok / status /
first 1000 characters of the response text. -/
theorem stop_frame_and_relay (st : ServerState)
    (fetchRes : Except String FetchResult) :
    (postStop st fetchRes).state = st ∧
    (postStop st fetchRes).events = [] ∧
    (st.messageWebhookUrl ≠ "" →
      (postStop st fetchRes).relayCalls
        = [⟨st.messageWebhookUrl, JsonPayload.stopSentinel⟩] ∧
      ∀ fr : FetchResult, fetchRes = .ok fr →
        (postStop st fetchRes).response
          = .relay fr.ok fr.status (fr.text.take 1000)) := by
  unfold postStop
  by_cases h : st.messageWebhookUrl = ""
  · simp [h]
  · cases fetchRes with
    | ok fr =>
        refine ⟨by simp [h], by simp [h], fun _ => ⟨by simp [h], ?_⟩⟩
        intro fr2 hfr
        obtain rfl : fr = fr2 := by
          injection hfr
        simp [h]
    | error e =>
        refine ⟨by simp [h], by simp [h], fun _ => ⟨by simp [h], ?_⟩⟩
        intro fr2 hfr
        exact absurd hfr (by simp)

/-- C9 (witness): the frame conditions and the relay at a concrete
configured state and resolved fetch. -/
theorem stop_frame_and_relay_witness :
    (postStop ⟨[("+1", [⟨"hi", "in", 1⟩])], "https://m", ""⟩
        (.ok ⟨true, 200, "ok"⟩)).state
      = ⟨[("+1", [⟨"hi", "in", 1⟩])], "https://m", ""⟩ ∧
    (postStop ⟨[("+1", [⟨"hi", "in", 1⟩])], "https://m", ""⟩
        (.ok ⟨true, 200, "ok"⟩)).events = [] ∧
    (postStop ⟨[("+1", [⟨"hi", "in", 1⟩])], "https://m", ""⟩
        (.ok ⟨true, 200, "ok"⟩)).relayCalls
      = [⟨"https://m", JsonPayload.stopSentinel⟩] ∧
    (postStop ⟨[("+1", [⟨"hi", "in", 1⟩])], "https://m", ""⟩
        (.ok ⟨true, 200, "ok"⟩)).response
      = .relay true 200 ("ok".take 1000) :=
  have h := stop_frame_and_relay ⟨[("+1", [⟨"hi", "in", 1⟩])], "https://m", ""⟩
    (.ok ⟨true, 200, "ok"⟩)
  ⟨h.1, h.2.1, (h.2.2 (by decide)).1, (h.2.2 (by decide)).2 _ rfl⟩

/-- C10: the legacy single-field setter, given a non-empty url
string, stores the trimmed url as the message webhook URL, leaves the
action webhook URL (and the chat store) untouched, and broadcasts a
settings event that carries only the new messageWebhookUrl value and
no actionWebhookUrl field at all. -/
theorem legacy_webhook_setter (st : ServerState) (u : String)
    (hu : u ≠ "") :
    postSettingsWebhook st (some u)
      = ⟨{ st with messageWebhookUrl := jsTrim u },
         .settingsLegacy (jsTrim u),
         [Event.settings (jsTrim u) none], []⟩ ∧
    (postSettingsWebhook st (some u)).state.actionWebhookUrl
      = st.actionWebhookUrl ∧
    (postSettingsWebhook st (some u)).state.chats = st.chats := by
  unfold postSettingsWebhook
  simp [hu]

/-- C10 (witness): the legacy setter at a concrete url. -/
theorem legacy_webhook_setter_witness :
    postSettingsWebhook ⟨[], "old", "act"⟩ (some " https://m ")
      = ⟨⟨[], jsTrim " https://m ", "act"⟩,
         .settingsLegacy (jsTrim " https://m "),
         [Event.settings (jsTrim " https://m ") none], []⟩ ∧
    (postSettingsWebhook ⟨[], "old", "act"⟩ (some " https://m ")).state.actionWebhookUrl
      = "act" ∧
    (postSettingsWebhook ⟨[], "old", "act"⟩ (some " https://m ")).state.chats
      = [] :=
  legacy_webhook_setter ⟨[], "old", "act"⟩ " https://m " (by decide)
